import Mathlib

/-!
Verification of the SonicWave music-library core (models.py, data_structures.py,
music_manager.py) against its natural-language specification.

The embedding models Python object references explicitly: all Song objects live
on a `heap : List Song` (an append-only arena), and every container stores
heap indices ("pointers"), mirroring the reference semantics of the source.
Python dicts are modelled as insertion-ordered association lists.
-/

/-- Song record, mirroring the `Song` dataclass in models.py. -/
structure Song where
  song_id : Nat
  title : String
  artist : String
  album : String
  genre : String
  year : Int
  duration_seconds : Nat
  file_path : String
  play_count : Nat
  is_favorite : Bool
deriving Repr, DecidableEq

/-- Default value used when dereferencing (never hit on reachable pointers). -/
def defaultSong : Song :=
  { song_id := 0, title := "", artist := "", album := "", genre := "", year := 0
  , duration_seconds := 0, file_path := "", play_count := 0, is_favorite := false }

/-- Dereference a Song object pointer on the heap. -/
def deref (heap : List Song) (p : Nat) : Song := heap.getD p defaultSong

/-- Identity (song_id) of the object a pointer refers to. -/
def derefId (heap : List Song) (p : Nat) : Nat := (deref heap p).song_id

/-- Lookup in a Python dict modelled as an insertion-ordered association list. -/
def dictGet {κ α : Type} [DecidableEq κ] (d : List (κ × α)) (k : κ) : Option α :=
  match d with
  | [] => none
  | (k', v) :: rest => if k' = k then some v else dictGet rest k

/-- Assignment `d[k] = v` on a Python dict: update in place, else append. -/
def dictSet {κ α : Type} [DecidableEq κ] (d : List (κ × α)) (k : κ) (v : α) :
    List (κ × α) :=
  match d with
  | [] => [(k, v)]
  | (k', v') :: rest => if k' = k then (k', v) :: rest else (k', v') :: dictSet rest k v

/-- Deletion `del d[k]` on a Python dict. -/
def dictDel {κ α : Type} [DecidableEq κ] (d : List (κ × α)) (k : κ) : List (κ × α) :=
  match d with
  | [] => []
  | (k', v') :: rest => if k' = k then rest else (k', v') :: dictDel rest k

/-- Unlink the first element satisfying the predicate (SLL/DLL `remove`). -/
def removeFirst {α : Type} (pred : α → Bool) : List α → List α
  | [] => []
  | x :: xs => if pred x then xs else x :: removeFirst pred xs

/-- Python `s.endswith(suffix)`. -/
def pyEndsWith (s suf : String) : Bool := suf.data.isSuffixOf s.data

/-- Contiguous-sublist test used to model Python substring containment. -/
def containsSub (q : List Char) : List Char → Bool
  | [] => q.isEmpty
  | c :: rest => q.isPrefixOf (c :: rest) || containsSub q rest

/-- Python `q in s` substring containment. -/
def strInStr (q s : String) : Bool := containsSub q.data s.data

/-- Python str.lower on the character sequence (ASCII case mapping), written
over the char list so that it evaluates inside the kernel. -/
def strLower (s : String) : String := ⟨s.data.map Char.toLower⟩

/-- Lexicographic code-point comparison of character sequences, written so it
evaluates inside the kernel. -/
def charListLt : List Char → List Char → Bool
  | [], [] => false
  | [], _ :: _ => true
  | _ :: _, [] => false
  | c :: cs, d :: ds => if c < d then true else if d < c then false else charListLt cs ds

/-- Python `<` on strings (lexicographic by code point). -/
def strLt (a b : String) : Bool := charListLt a.data b.data

/-- Stable insertion step of Python `sorted` on strings (code-point order). -/
def insertSortedStr (x : String) : List String → List String
  | [] => [x]
  | y :: ys => if strLt y x then y :: insertSortedStr x ys else x :: y :: ys

/-- Python `sorted` on a list of strings. -/
def pySortedStrings (l : List String) : List String := l.foldr insertSortedStr []

/-- Stable insertion step of Python `sorted(out, key=lambda s: s.lower())`. -/
def insertByLower (x : String) : List String → List String
  | [] => [x]
  | y :: ys => if strLt (strLower y) (strLower x) then y :: insertByLower x ys else x :: y :: ys

/-- GenreMultiList._find_genre: first genre header whose name matches
case-insensitively; headers are (name, song sub-list of pointers). -/
def findGenre (genres : List (String × List Nat)) (g : String) :
    Option (String × List Nat) :=
  genres.find? (fun h => strLower h.1 == strLower g)

/-- Prepend a song pointer into the sub-list of the first header matching `g`. -/
def addSongIn (genres : List (String × List Nat)) (g : String) (p : Nat) :
    List (String × List Nat) :=
  match genres with
  | [] => []
  | (name, songs) :: rest =>
    if strLower name = strLower g then (name, p :: songs) :: rest
    else (name, songs) :: addSongIn rest g p

/-- GenreMultiList.add_song: find-or-create the header (new headers are
prepended at the front), then prepend the song into its sub-list. -/
def addSongG (genres : List (String × List Nat)) (g : String) (p : Nat) :
    List (String × List Nat) :=
  if (findGenre genres g).isSome then addSongIn genres g p else (g, [p]) :: genres

/-- GenreMultiList.remove_song: find the header by normalized match; if absent
no-op returning false; otherwise unlink the first sub-list match. -/
def removeSongG (genres : List (String × List Nat)) (g : String)
    (pred : Nat → Bool) : Bool × List (String × List Nat) :=
  match genres with
  | [] => (false, [])
  | (name, songs) :: rest =>
    if strLower name = strLower g then
      (songs.any pred, (name, removeFirst pred songs) :: rest)
    else
      let r := removeSongG rest g pred
      (r.1, (name, songs) :: r.2)

/-- GenreMultiList.get_genres: header names sorted case-insensitively. -/
def getGenresG (genres : List (String × List Nat)) : List String :=
  (genres.map Prod.fst).foldr insertByLower []

/-- GenreMultiList.get_songs: sub-list snapshot of the matching header. -/
def getSongsG (genres : List (String × List Nat)) (g : String) : List Nat :=
  match findGenre genres g with
  | some h => h.2
  | none => []

/-- Binary search tree node of data_structures.BST (key, value = Song pointer). -/
inductive BSTree where
  | leaf : BSTree
  | node : BSTree → String → Nat → BSTree → BSTree
deriving Repr, DecidableEq

/-- BST._insert on an already-normalized key (last-write-wins on collision). -/
def bstInsertGo (t : BSTree) (k : String) (v : Nat) : BSTree :=
  match t with
  | .leaf => .node .leaf k v .leaf
  | .node l key val r =>
    if strLt k key then .node (bstInsertGo l k v) key val r
    else if strLt key k then .node l key val (bstInsertGo r k v)
    else .node l key v r

/-- BST.insert: lowercases the key then inserts. -/
def bstInsert (t : BSTree) (key : String) (v : Nat) : BSTree :=
  bstInsertGo t (strLower key) v

/-- BST.search descent on an already-normalized key. -/
def bstSearchGo (t : BSTree) (k : String) : Option Nat :=
  match t with
  | .leaf => none
  | .node l key v r =>
    if strLt k key then bstSearchGo l k
    else if strLt key k then bstSearchGo r k
    else some v

/-- BST.search: lowercases the query then descends. -/
def bstSearch (t : BSTree) (key : String) : Option Nat := bstSearchGo t (strLower key)

/-- BST.partial_match traversal on an already-normalized query: collect values
whose key contains the query as a substring (node, then left, then right). -/
def bstPartialGo (q : String) (t : BSTree) : List Nat :=
  match t with
  | .leaf => []
  | .node l key v r =>
    (if strInStr q key then [v] else []) ++ bstPartialGo q l ++ bstPartialGo q r

/-- BST.partial_match: lowercases the query then traverses. -/
def bstPartial (t : BSTree) (query : String) : List Nat := bstPartialGo (strLower query) t

/-- Adjacency mapping of SongGraph: song_id -> list of similar song_ids. -/
abbrev Adj := List (Nat × List Nat)

/-- Neighbor list of an id, defaulting to empty (`self.adj.get(id, [])`). -/
def adjGetD (g : Adj) (k : Nat) : List Nat := (dictGet g k).getD []

/-- SongGraph.add_song: `self.adj.setdefault(song_id, [])`. -/
def graphAddSong (g : Adj) (id : Nat) : Adj :=
  if (dictGet g id).isSome then g else g ++ [(id, [])]

/-- SongGraph.add_edge: no-op on a self-loop; otherwise ensure both nodes and
append each endpoint to the other's neighbor list if not already present. -/
def graphAddEdge (g : Adj) (a b : Nat) : Adj :=
  if a = b then g else
  let g2 := graphAddSong (graphAddSong g a) b
  let g3 := if b ∈ adjGetD g2 a then g2 else dictSet g2 a (adjGetD g2 a ++ [b])
  if a ∈ adjGetD g3 b then g3 else dictSet g3 b (adjGetD g3 b ++ [a])

/-- SongGraph.neighbors: copy of the neighbor list, or empty if unknown. -/
def graphNeighbors (g : Adj) (id : Nat) : List Nat := adjGetD g id

/-- SongGraph.remove_song: strip the id from every neighbor listed in its own
adjacency (list.remove drops the first occurrence), then delete its entry. -/
def graphRemoveSong (g : Adj) (id : Nat) : Adj :=
  match dictGet g id with
  | none => g
  | some ns =>
    let g' := ns.foldl
      (fun acc n =>
        if id ∈ adjGetD acc n then dictSet acc n ((adjGetD acc n).erase id) else acc)
      g
    dictDel g' id

/-- Playback state of the MusicLibraryManager (music_manager.py). Containers
hold Song object pointers; `song_index` is the id-lookup dict; `heap` is the
arena of Song objects (append-only, mutated in place like Python objects). -/
structure ManagerState where
  heap : List Song
  library : List Nat
  genres : List (String × List Nat)
  bst : BSTree
  queue : List Nat
  history : List Nat
  graph : Adj
  playlists : List (String × List Nat)
  song_index : List (Nat × Nat)
  next_id : Nat
deriving Repr, DecidableEq

/-- Field values of the manager before its constructor runs rescan. -/
def initState : ManagerState :=
  { heap := [], library := [], genres := [], bst := .leaf, queue := []
  , history := [], graph := [], playlists := [], song_index := [], next_id := 1 }

/-- Key used for the genre index: `song.genre or "Unknown"`. -/
def pyGenreKey (s : Song) : String := if s.genre = "" then "Unknown" else s.genre

/-- Key used for the title tree: `s.title or str(s.song_id)`. -/
def pyTitleKey (s : Song) : String := if s.title = "" then toString s.song_id else s.title

/-- MusicLibraryManager._index_and_insert: allocate the Song object and insert
it into the id index, the master list, the genre index, the BST and the graph. -/
def index_and_insert (st : ManagerState) (song : Song) : ManagerState :=
  let p := st.heap.length
  { st with
    heap := st.heap ++ [song]
    song_index := dictSet st.song_index song.song_id p
    library := st.library ++ [p]
    genres := addSongG st.genres (pyGenreKey song) p
    bst := bstInsert st.bst (pyTitleKey song) p
    graph := graphAddSong st.graph song.song_id }

/-- Base of `os.path.splitext`: split at the last dot provided some non-dot
character precedes it. -/
def splitextBase (s : String) : String :=
  match s.data.reverse.findIdx? (· = '.') with
  | none => s
  | some ridx =>
    let di := s.data.length - 1 - ridx
    let before := s.data.take di
    if before.any (· ≠ '.') then ⟨before⟩ else s

/-- Python `base.replace("_", " ")` for the single-character pattern. -/
def underscoresToSpaces (s : String) : String :=
  ⟨s.data.map (fun c => if c = '_' then ' ' else c)⟩

/-- File-extension filter of rescan (lowercased .mp3 / .wav). -/
def isMusicFile (fname : String) : Bool :=
  pyEndsWith (strLower fname) ".mp3" || pyEndsWith (strLower fname) ".wav"

/-- The per-file body of rescan's directory loop: derive naive metadata from
the filename, assign the next id, insert, and bump the id counter. -/
def scanFile (st : ManagerState) (fname : String) : ManagerState :=
  if isMusicFile fname then
    let song : Song :=
      { song_id := st.next_id
      , title := underscoresToSpaces (splitextBase fname)
      , artist := "Unknown", album := "Unknown", genre := "Unknown"
      , year := 2024, duration_seconds := 0
      , file_path := "static/music/" ++ fname
      , play_count := 0, is_favorite := false }
    let st1 := index_and_insert st song
    { st1 with next_id := st1.next_id + 1 }
  else st

/-- Similarity score of rescan's edge construction: +3 same non-empty artist,
+2 same non-empty genre, +1 release years within 2. -/
def score (a b : Song) : Nat :=
  (if a.artist ≠ "" ∧ b.artist ≠ "" ∧ a.artist = b.artist then 3 else 0)
  + (if a.genre ≠ "" ∧ b.genre ≠ "" ∧ a.genre = b.genre then 2 else 0)
  + (if (a.year - b.year).natAbs ≤ 2 then 1 else 0)

/-- Inner loop of edge construction: edges from `a` to each later song. -/
def addEdgesFrom (a : Song) (rest : List Song) (g : Adj) : Adj :=
  rest.foldl (fun acc b => if 2 ≤ score a b then graphAddEdge acc a.song_id b.song_id else acc) g

/-- Outer loop of rescan's naive O(n^2) edge construction over all pairs i < j. -/
def buildEdges : List Song → Adj → Adj
  | [], g => g
  | a :: rest, g => buildEdges rest (addEdgesFrom a rest g)

/-- MusicLibraryManager.get_all_songs (SLL traversal yielding Song objects). -/
def get_all_songs (st : ManagerState) : List Song := st.library.map (deref st.heap)

/-- MusicLibraryManager.rescan, parameterized by the directory listing: reset
index structures and the id counter, insert each accepted file in sorted
order, then run similarity-edge construction over the complete song set.
Queue, history and playlists are not cleared. -/
def rescan (st : ManagerState) (files : List String) : ManagerState :=
  let st0 := { st with
    library := []
    genres := []
    bst := BSTree.leaf
    graph := []
    song_index := []
    next_id := 1 }
  let st1 := (pySortedStrings files).foldl scanFile st0
  { st1 with graph := buildEdges (get_all_songs st1) st1.graph }

/-- MusicLibraryManager.get_song_by_id (returns the Song object reference). -/
def get_song_by_id (st : ManagerState) (id : Nat) : Option Nat :=
  dictGet st.song_index id

/-- Optional field values of update_song as invoked from the admin edit route
(title, artist, album, genre, year); None fields are skipped. -/
structure UpdateFields where
  title : Option String
  artist : Option String
  album : Option String
  genre : Option String
  year : Option Int
deriving Repr, DecidableEq

/-- Application of the recognized, non-None fields to the Song object. -/
def applyFields (s : Song) (f : UpdateFields) : Song :=
  { s with
    title := f.title.getD s.title
    artist := f.artist.getD s.artist
    album := f.album.getD s.album
    genre := f.genre.getD s.genre
    year := f.year.getD s.year }

/-- Rebuild of the BST from the current song set (update_song/delete_song). -/
def buildBST (heap : List Song) (library : List Nat) : BSTree :=
  library.foldl (fun t p => bstInsert t (pyTitleKey (deref heap p)) p) BSTree.leaf

/-- MusicLibraryManager.update_song: no-op on unknown id; apply non-None
fields to the object; move genre-index membership if the genre changed;
rebuild the BST if the title changed. -/
def update_song (st : ManagerState) (id : Nat) (f : UpdateFields) : ManagerState :=
  match dictGet st.song_index id with
  | none => st
  | some ptr =>
    let song := deref st.heap ptr
    let old_genre := song.genre
    let old_title := song.title
    let song' := applyFields song f
    let heap' := st.heap.set ptr song'
    let genres' :=
      if old_genre ≠ song'.genre then
        addSongG (removeSongG st.genres old_genre (fun p => derefId heap' p = id)).2
          song'.genre ptr
      else st.genres
    let bst' := if old_title ≠ song'.title then buildBST heap' st.library else st.bst
    { st with heap := heap', genres := genres', bst := bst' }

/-- MusicLibraryManager.delete_song: no-op on unknown id; otherwise remove the
song from the master list, its genre bucket, the id index; rebuild the BST;
filter the queue and history; remove the first playlist match per playlist;
remove the graph node with neighbor-side cleanup. -/
def delete_song (st : ManagerState) (id : Nat) : ManagerState :=
  match dictGet st.song_index id with
  | none => st
  | some ptr =>
    let song := deref st.heap ptr
    let library' := removeFirst (fun p => derefId st.heap p = id) st.library
    let genres' := (removeSongG st.genres song.genre (fun p => derefId st.heap p = id)).2
    let song_index' := dictDel st.song_index id
    let bst' := buildBST st.heap library'
    let queue' := st.queue.filter (fun p => derefId st.heap p ≠ id)
    let history' := st.history.filter (fun p => derefId st.heap p ≠ id)
    let playlists' := st.playlists.map
      (fun pl => (pl.1, removeFirst (fun p => derefId st.heap p = id) pl.2))
    let graph' := graphRemoveSong st.graph id
    { st with
      library := library'
      genres := genres'
      song_index := song_index'
      bst := bst'
      queue := queue'
      history := history'
      playlists := playlists'
      graph := graph' }

/-- MusicLibraryManager.toggle_favorite: None on unknown id; otherwise flip
the object's is_favorite flag in place and return the new value. -/
def toggle_favorite (st : ManagerState) (id : Nat) : Option Bool × ManagerState :=
  match dictGet st.song_index id with
  | none => (none, st)
  | some p =>
    let s := deref st.heap p
    let s' := { s with is_favorite := !s.is_favorite }
    (some s'.is_favorite, { st with heap := st.heap.set p s' })

/-- MusicLibraryManager.get_all_genres. -/
def get_all_genres (st : ManagerState) : List String := getGenresG st.genres

/-- MusicLibraryManager.get_songs_by_genre. -/
def get_songs_by_genre (st : ManagerState) (g : String) : List Nat :=
  getSongsG st.genres g

/-- MusicLibraryManager.search_by_title: exact BST lookup first (a Song object
is always truthy), partial-match traversal as the fallback. -/
def search_by_title (st : ManagerState) (query : String) : List Nat :=
  match bstSearch st.bst query with
  | some p => [p]
  | none => bstPartial st.bst query

/-- MusicLibraryManager.create_playlist: create if the name is absent. -/
def create_playlist (st : ManagerState) (name : String) : ManagerState :=
  if (dictGet st.playlists name).isSome then st
  else { st with playlists := st.playlists ++ [(name, [])] }

/-- MusicLibraryManager.add_song_to_playlist: always create the playlist,
then append the song only when the id resolves. -/
def add_song_to_playlist (st : ManagerState) (name : String) (id : Nat) : ManagerState :=
  let st1 := create_playlist st name
  match dictGet st1.song_index id with
  | none => st1
  | some p =>
    { st1 with playlists := dictSet st1.playlists name ((dictGet st1.playlists name).getD [] ++ [p]) }

/-- MusicLibraryManager.get_playlist_songs. -/
def get_playlist_songs (st : ManagerState) (name : String) : List Nat :=
  (dictGet st.playlists name).getD []

/-- MusicLibraryManager.enqueue_song: enqueue only when the id resolves. -/
def enqueue_song (st : ManagerState) (id : Nat) : ManagerState :=
  match dictGet st.song_index id with
  | none => st
  | some p => { st with queue := st.queue ++ [p] }

/-- MusicLibraryManager.dequeue_song (Queue.dequeue). -/
def dequeue_song (st : ManagerState) : Option Nat × ManagerState :=
  match st.queue with
  | [] => (none, st)
  | q :: qs => (some q, { st with queue := qs })

/-- MusicLibraryManager.record_play: bump the object's play count and push it
onto the history stack. -/
def record_play (st : ManagerState) (p : Nat) : ManagerState :=
  let s := deref st.heap p
  { st with
    heap := st.heap.set p { s with play_count := s.play_count + 1 }
    history := p :: st.history }

/-- Playlist.next_of: scan to the first node carrying the id, return the
following node's object if one exists. -/
def nextOf (heap : List Song) (l : List Nat) (sid : Nat) : Option Nat :=
  match l with
  | [] => none
  | p :: rest => if derefId heap p = sid then rest.head? else nextOf heap rest sid

/-- Playlist.prev_of: scan to the first node carrying the id, return the
preceding node's object if one exists. -/
def prevOfAux (heap : List Song) (prev : Option Nat) (l : List Nat) (sid : Nat) :
    Option Nat :=
  match l with
  | [] => none
  | p :: rest => if derefId heap p = sid then prev else prevOfAux heap (some p) rest sid

/-- Playlist.prev_of from the head of the list. -/
def prevOf (heap : List Song) (l : List Nat) (sid : Nat) : Option Nat :=
  prevOfAux heap none l sid

/-- Python truthiness of the optional current song id (0 and None are falsy). -/
def truthyId : Option Nat → Bool
  | none => false
  | some i => i ≠ 0

/-- Python truthiness of the optional playlist name ("" and None are falsy). -/
def truthyName : Option String → Bool
  | none => false
  | some s => s ≠ ""

/-- Source of randomness consumed by the sequencing fallbacks: `shuffle`
models random.shuffle of the neighbor list, `pick` models random.choice as
an index selection. -/
structure RandOracle where
  shuffle : List Nat → List Nat
  pick : List Nat → Nat

/-- Python `random.choice(l)` for non-empty l, modelled through the oracle. -/
def pyChoice (rnd : RandOracle) (l : List Nat) : Option Nat :=
  if l.isEmpty then none else some (l.getD (rnd.pick l % l.length) 0)

/-- MusicLibraryManager.get_next_similar_song: first shuffled graph neighbor
that still resolves, else a random library song, else None. -/
def get_next_similar_song (rnd : RandOracle) (st : ManagerState) (sid : Nat) :
    Option Nat :=
  let ns := rnd.shuffle (graphNeighbors st.graph sid)
  match ns.findSome? (fun nid => dictGet st.song_index nid) with
  | some p => some p
  | none => pyChoice rnd st.library

/-- MusicLibraryManager.get_next_song: playlist next, else dequeue, else a
similar song, else a random library song. -/
def get_next_song (rnd : RandOracle) (st : ManagerState) (cid : Option Nat)
    (pname : Option String) : Option Nat × ManagerState :=
  let plHit :=
    if truthyName pname ∧ (dictGet st.playlists (pname.getD "")).isSome ∧ truthyId cid then
      nextOf st.heap ((dictGet st.playlists (pname.getD "")).getD []) (cid.getD 0)
    else none
  match plHit with
  | some p => (some p, st)
  | none =>
    let dq := dequeue_song st
    match dq.1 with
    | some q => (some q, dq.2)
    | none =>
      if truthyId cid then
        match get_next_similar_song rnd dq.2 (cid.getD 0) with
        | some s => (some s, dq.2)
        | none => (pyChoice rnd dq.2.library, dq.2)
      else (pyChoice rnd dq.2.library, dq.2)

/-- MusicLibraryManager.get_previous_song: playlist previous, else pop the
history; when the popped entry is the current song, pop once more. -/
def get_previous_song (st : ManagerState) (cid : Option Nat)
    (pname : Option String) : Option Nat × ManagerState :=
  let plHit :=
    if truthyName pname ∧ (dictGet st.playlists (pname.getD "")).isSome ∧ truthyId cid then
      prevOf st.heap ((dictGet st.playlists (pname.getD "")).getD []) (cid.getD 0)
    else none
  match plHit with
  | some p => (some p, st)
  | none =>
    match st.history with
    | [] => (none, st)
    | t :: rest =>
      if truthyId cid ∧ derefId st.heap t = cid.getD 0 then
        match rest with
        | [] => (none, { st with history := [] })
        | t2 :: rest2 => (some t2, { st with history := rest2 })
      else (some t, { st with history := rest })

/-- Oracle used at concrete evaluation points: identity shuffle, index 0. -/
def idOracle : RandOracle := { shuffle := fun l => l, pick := fun _ => 0 }

/-- Graph holding a node entry per song and no edges: the state of the graph
right before rescan's edge construction. -/
def nodesOnly (songs : List Song) : Adj :=
  songs.foldl (fun g s => graphAddSong g s.song_id) []

/-- UpdateFields with no field set. -/
def noFields : UpdateFields :=
  { title := none, artist := none, album := none, genre := none, year := none }

/-- Song A of the spec's similarity scenario. -/
def songA : Song :=
  { song_id := 1, title := "A", artist := "X", album := "", genre := "Rock"
  , year := 2020, duration_seconds := 0, file_path := "", play_count := 0
  , is_favorite := false }

/-- Song B of the spec's similarity scenario. -/
def songB : Song :=
  { song_id := 2, title := "B", artist := "X", album := "", genre := "Pop"
  , year := 2021, duration_seconds := 0, file_path := "", play_count := 0
  , is_favorite := false }

/-- Song C of the spec's similarity scenario. -/
def songC : Song :=
  { song_id := 3, title := "C", artist := "Y", album := "", genre := "Jazz"
  , year := 1990, duration_seconds := 0, file_path := "", play_count := 0
  , is_favorite := false }

/-- State after scanning one file, enqueuing it, and rescanning an empty
directory: the queue still references the orphaned id. -/
def c1State : ManagerState := rescan (enqueue_song (rescan initState ["a.mp3"]) 1) []

/-- First rescan generation for the id-reuse refutation. -/
def c2StateA : ManagerState := rescan initState ["a.mp3"]

/-- Second rescan generation: a different song receives id 1 again. -/
def c2StateB : ManagerState := rescan c2StateA ["b.mp3"]

/-- State after adding the same song twice to playlist "p" and deleting it. -/
def c3State : ManagerState :=
  delete_song (add_song_to_playlist (add_song_to_playlist (rescan initState ["a.mp3"]) "p" 1) "p" 1) 1

/-- Three-song library for the get_next_song refutations (ids b=1, c=2, x=3). -/
def c4Base : ManagerState := rescan initState ["b.mp3", "c.mp3", "x.mp3"]

/-- Playlist named "" holding [id 1, id 2], with id 3 enqueued. -/
def c4State1 : ManagerState :=
  enqueue_song (add_song_to_playlist (add_song_to_playlist c4Base "" 1) "" 2) 3

/-- Playlist "p" holding [id 1, id 3, id 1, id 2]. -/
def c4State2 : ManagerState :=
  add_song_to_playlist (add_song_to_playlist (add_song_to_playlist (add_song_to_playlist c4Base "p" 1) "p" 3) "p" 1) "p" 2

/-- State after updating the library song's genre to "ROCK" and then "rock". -/
def c7State : ManagerState :=
  update_song (update_song (rescan initState ["a.mp3"]) 1 { noFields with genre := some "ROCK" }) 1
    { noFields with genre := some "rock" }

/-- Library scanned from two case-colliding titles "Hello" and "HELLO". -/
def c8State : ManagerState := rescan initState ["Hello.mp3", "HELLO.mp3"]

/-- Three-song library with history [id 3, id 2, id 1] (id 3 on top). -/
def c5State : ManagerState :=
  record_play (record_play (record_play (rescan initState ["b.mp3", "c.mp3", "x.mp3"]) 0) 1) 2

/-- One-song library used for the toggle_favorite witness. -/
def c10State : ManagerState := rescan initState ["w.mp3"]

/-- Playlist "rt" holding objects [0, 1, 2] (song ids 1, 2, 3 in order). -/
def c4WitnessState : ManagerState :=
  add_song_to_playlist (add_song_to_playlist (add_song_to_playlist (rescan initState ["b.mp3", "c.mp3", "x.mp3"]) "rt" 1) "rt" 2) "rt" 3

/-- Library song with genre updated to "ROCK", for the C7 witness. -/
def c7WitnessState : ManagerState :=
  update_song (rescan initState ["a.mp3"]) 1 { noFields with genre := some "ROCK" }

/-- Two-song library with distinct normalized titles, for the C8 witness. -/
def c8WitnessState : ManagerState := rescan initState ["x.mp3", "y.mp3"]

/-- Occurrence of `a` strictly before `b` in a song list: exactly the pairs
visited by the i < j double loop of rescan's edge construction. -/
def OrdPair : List Song → Song → Song → Prop
  | [], _, _ => False
  | s :: rest, a, b => (s = a ∧ b ∈ rest) ∨ OrdPair rest a b

/-- Invariant of the directory-scan loop: pointers are in range, library ids
are exactly 1..n in order, the id counter is n+1, and the graph holds one
empty node entry per library song in order. -/
def ScanInv (st : ManagerState) : Prop :=
  (∀ p ∈ st.library, p < st.heap.length)
  ∧ st.library.map (derefId st.heap) = List.range' 1 st.library.length
  ∧ st.next_id = st.library.length + 1
  ∧ st.graph = st.library.map (fun p => (derefId st.heap p, ([] : List Nat)))

/-- C1: the claim states that after every Coordinator operation — rescan
included — no playlist, the Queue, and the History contain a song id absent
from the id-lookup index. The code violates it: after the library's only song
(id 1) is enqueued and an empty directory is rescanned, the queue still holds
the object with id 1 while the id-lookup index is empty. -/
theorem c1_rescan_orphans_queue :
    c1State.queue.map (derefId c1State.heap) = [1] ∧ c1State.song_index = [] := by
  decide

/-- C2, counterexample: within one process lifetime (no restart between the
two rescans), id 1 is assigned to the song titled "a" (the library song of the
first generation, object 0) and later to the different song titled "b" (the
library song of the second generation, object 1), refuting "a given id value
is never assigned to a second (different) song within a process lifetime". -/
theorem c2_counterexample :
    c2StateA.library = [0] ∧ c2StateB.library = [1]
    ∧ deref c2StateB.heap 0 ≠ deref c2StateB.heap 1
    ∧ derefId c2StateB.heap 0 = 1 ∧ derefId c2StateB.heap 1 = 1 := by
  decide

/-- C3: the claim states that after delete_song(s.song_id) the id is absent
from every playlist. The code removes only the first matching playlist node:
with song id 1 added twice to playlist "p", after delete_song 1 the playlist
still contains id 1 even though the id is gone from the id-lookup index. -/
theorem c3_delete_leaves_playlist_duplicate :
    (get_playlist_songs c3State "p").map (derefId c3State.heap) = [1]
    ∧ dictGet c3State.song_index 1 = none := by
  decide

/-- C4, counterexample: two refutations. (1) Playlist named "" contains id 1
immediately followed by id 2 (objects 0 and 1), yet get_next_song(1, "")
returns object 2 (song id 3) from the queue and consumes the queue, because an
empty playlist name is falsy. (2) Playlist "p" is [id 1, id 3, id 1, id 2]:
it contains id 1 immediately followed by id 2 (objects 0, 1), yet
get_next_song(1, "p") returns object 2 (song id 3), the successor of the
first occurrence of id 1. -/
theorem c4_counterexample :
    (dictGet c4State1.playlists "" = some [0, 1]
      ∧ derefId c4State1.heap 0 = 1 ∧ derefId c4State1.heap 1 = 2
      ∧ get_next_song idOracle c4State1 (some 1) (some "")
          = (some 2, { c4State1 with queue := [] })
      ∧ derefId c4State1.heap 2 = 3)
    ∧ (dictGet c4State2.playlists "p" = some [0, 2, 0, 1]
      ∧ derefId c4State2.heap 0 = 1 ∧ derefId c4State2.heap 1 = 2
      ∧ (get_next_song idOracle c4State2 (some 1) (some "p")).1 = some 2
      ∧ derefId c4State2.heap 2 = 3) := by
  decide

/-- C7, counterexample: the library song (object 0) has genre "ROCK"; after
update_song(1, genre="rock") — a genre distinct from "ROCK" as the claim
requires — the song still appears in the Two-Level Index listing for its old
genre "ROCK", because genre matching is case-insensitive. -/
theorem c7_counterexample :
    (deref c7State.heap 0).genre = "rock"
    ∧ (get_songs_by_genre c7State "ROCK").map (derefId c7State.heap) = [1] := by
  decide

/-- C8, counterexample: songs titled "HELLO" (id 1, object 0) and "Hello"
(id 2, object 1) are inserted; "HELLO" is unique among the inserted titles,
yet search_by_title "HELLO" returns the song titled "Hello" (object 1), not
the song titled "HELLO", because title keys are lowercased and collide. -/
theorem c8_counterexample :
    (deref c8State.heap 0).title = "HELLO" ∧ (deref c8State.heap 1).title = "Hello"
    ∧ search_by_title c8State "HELLO" = [1]
    ∧ (deref c8State.heap 1).title ≠ "HELLO" := by
  decide

theorem dictGet_set_self {κ α : Type} [DecidableEq κ] (d : List (κ × α)) (k : κ) (v : α) :
    dictGet (dictSet d k v) k = some v := by
  induction d with
  | nil => simp [dictSet, dictGet]
  | cons hd rest ih =>
    obtain ⟨k', v'⟩ := hd
    by_cases hk : k' = k
    · simp [dictSet, dictGet, hk]
    · simp [dictSet, dictGet, hk, ih]

theorem dictGet_append_absent {κ α : Type} [DecidableEq κ] (d : List (κ × α)) (k : κ)
    (v : α) (h : dictGet d k = none) : dictGet (d ++ [(k, v)]) k = some v := by
  induction d with
  | nil => simp [dictGet]
  | cons hd rest ih =>
    obtain ⟨k', v'⟩ := hd
    by_cases hk : k' = k
    · simp [dictGet, hk] at h
    · simp [dictGet, hk] at h ⊢
      exact ih h

theorem deref_set_self (heap : List Song) (p : Nat) (s : Song) (h : p < heap.length) :
    deref (heap.set p s) p = s := by
  simp [deref, List.getD_eq_getElem?_getD, List.getElem?_set_self h]

theorem deref_set_of_le (heap : List Song) (p : Nat) (s : Song) (h : heap.length ≤ p) :
    heap.set p s = heap := List.set_eq_of_length_le h

/-- C10: toggle_favorite returns None and leaves the whole state unchanged
exactly when the id is unknown; for a known id it returns the negated flag and
changes nothing but that object's is_favorite field; toggling twice restores
the original flag. -/
theorem c10_toggle_favorite (st : ManagerState) (id : Nat) :
    ((toggle_favorite st id).1 = none ↔ dictGet st.song_index id = none)
    ∧ (dictGet st.song_index id = none → (toggle_favorite st id).2 = st)
    ∧ (∀ p, dictGet st.song_index id = some p →
        (toggle_favorite st id).1 = some (!(deref st.heap p).is_favorite)
        ∧ (toggle_favorite st id).2 = { st with heap := st.heap.set p { deref st.heap p with is_favorite := !(deref st.heap p).is_favorite } }
        ∧ (deref ((toggle_favorite (toggle_favorite st id).2 id).2).heap p).is_favorite
            = (deref st.heap p).is_favorite) := by
  cases h : dictGet st.song_index id with
  | none => simp [toggle_favorite, h]
  | some p =>
    refine ⟨by simp [toggle_favorite, h], by simp [h], ?_⟩
    intro q hq
    injection hq with hq'
    subst hq'
    refine ⟨by simp [toggle_favorite, h], by simp [toggle_favorite, h], ?_⟩
    have hidx : (toggle_favorite st id).2.song_index = st.song_index := by
      simp [toggle_favorite, h]
    by_cases hp : p < st.heap.length
    · simp only [toggle_favorite, h, hidx]
      rw [deref_set_self _ _ _ hp]
      rw [deref_set_self]
      · simp
      · simpa using hp
    · have hle : st.heap.length ≤ p := le_of_not_lt hp
      simp only [toggle_favorite, h, hidx, deref_set_of_le _ _ _ hle]

/-- C10 witness: in the one-song library the flag starts false; the first
toggle returns true and a second toggle restores the stored flag. -/
theorem c10_witness :
    (toggle_favorite c10State 1).1 = some true
    ∧ (deref ((toggle_favorite (toggle_favorite c10State 1).2 1).2).heap 0).is_favorite
        = (deref c10State.heap 0).is_favorite := by
  have h := (c10_toggle_favorite c10State 1).2.2 0 (by decide)
  exact ⟨by simpa using h.1, h.2.2⟩

theorem create_playlist_song_index (st : ManagerState) (name : String) :
    (create_playlist st name).song_index = st.song_index := by
  unfold create_playlist
  split <;> rfl

theorem create_playlist_has_name (st : ManagerState) (name : String) :
    (dictGet (create_playlist st name).playlists name).isSome := by
  unfold create_playlist
  cases hg : dictGet st.playlists name with
  | some v => simp [hg]
  | none => simp [hg, dictGet_append_absent _ _ _ hg]

/-- C9: add_song_to_playlist always leaves a playlist with the given name in
place, and on an unknown song id it behaves exactly like create_playlist:
the playlist is created (or left as-is), no song is added, no error. -/
theorem c9_add_song_to_playlist (st : ManagerState) (name : String) (id : Nat) :
    (dictGet (add_song_to_playlist st name id).playlists name).isSome
    ∧ (dictGet st.song_index id = none →
        add_song_to_playlist st name id = create_playlist st name) := by
  constructor
  · unfold add_song_to_playlist
    cases hidx : dictGet (create_playlist st name).song_index id with
    | none =>
      simp only [hidx]
      simpa using create_playlist_has_name st name
    | some p =>
      simp only [hidx]
      simp [dictGet_set_self]
  · intro h
    simp only [add_song_to_playlist, create_playlist_song_index, h]

/-- C9 witness: on the empty library and unknown id 5, playlist "p" exists
afterwards and the operation reduces to creating the empty playlist. -/
theorem c9_witness :
    (dictGet (add_song_to_playlist initState "p" 5).playlists "p").isSome
    ∧ add_song_to_playlist initState "p" 5 = create_playlist initState "p" :=
  ⟨(c9_add_song_to_playlist initState "p" 5).1,
   (c9_add_song_to_playlist initState "p" 5).2 (by decide)⟩

/-- C5: with no playlist given, get_previous_song pops the history stack;
when the popped entry carries the given current id it pops once more and
returns that entry (popping the remaining stack); otherwise it returns the
first popped entry; and it returns nothing when the history is empty. -/
theorem c5_get_previous_song (st : ManagerState) (cid : Option Nat)
    (hcid : cid = none ∨ ∃ i, cid = some i ∧ i ≠ 0) :
    (st.history = [] → get_previous_song st cid none = (none, st))
    ∧ (∀ t rest, st.history = t :: rest → cid = some (derefId st.heap t) →
        get_previous_song st cid none = (rest.head?, { st with history := rest.tail }))
    ∧ (∀ t rest, st.history = t :: rest → cid ≠ some (derefId st.heap t) →
        get_previous_song st cid none = (some t, { st with history := rest })) := by
  refine ⟨?_, ?_, ?_⟩
  · intro h
    simp [get_previous_song, truthyName, h]
  · intro t rest h hc
    obtain ⟨i, hi, hne⟩ := hcid.resolve_left (by rintro rfl; exact Option.noConfusion hc)
    subst hi
    injection hc with hc'
    subst hc'
    cases rest with
    | nil => simp [get_previous_song, truthyName, h, truthyId, hne]
    | cons t2 rest2 => simp [get_previous_song, truthyName, h, truthyId, hne]
  · intro t rest h hc
    rcases hcid with hn | ⟨i, hi, hne⟩
    · subst hn
      simp [get_previous_song, truthyName, truthyId, h]
    · subst hi
      have : derefId st.heap t ≠ i := fun he => hc (by rw [he])
      simp [get_previous_song, truthyName, truthyId, h, this]

/-- C5 witness: history holds objects [2, 1, 0] (song ids 3, 2, 1 with id 3 on
top); asking for the previous of current id 3 pops id 3, pops again and
returns object 1 (song id 2); and with current id 9 it returns the top. -/
theorem c5_witness :
    get_previous_song c5State (some 3) none = (some 1, { c5State with history := [0] })
    ∧ get_previous_song c5State (some 9) none = (some 2, { c5State with history := [1, 0] }) := by
  constructor
  · have h := (c5_get_previous_song c5State (some 3) (Or.inr ⟨3, rfl, by decide⟩)).2.1
      2 [1, 0] (by decide) (by decide)
    simpa using h
  · have h := (c5_get_previous_song c5State (some 9) (Or.inr ⟨9, rfl, by decide⟩)).2.2
      2 [1, 0] (by decide) (by decide)
    simpa using h

theorem nextOf_first (heap : List Song) (b : Nat) (l1 : List Nat) (pb pc : Nat)
    (l2 : List Nat) (hpb : derefId heap pb = b) (hl1 : ∀ p ∈ l1, derefId heap p ≠ b) :
    nextOf heap (l1 ++ pb :: pc :: l2) b = some pc := by
  induction l1 with
  | nil => simp [nextOf, hpb]
  | cons x xs ih =>
    have hx : derefId heap x ≠ b := hl1 x (by simp)
    simp only [List.cons_append, nextOf, hx, if_false]
    exact ih (fun p hp => hl1 p (by simp [hp]))

/-- C4 (amended): when the playlist name is non-empty, the playlist exists,
the current id is nonzero, and the first occurrence of that id in the playlist
is immediately followed by the object pc, get_next_song returns pc and leaves
the entire state — the Queue and the History included — unchanged, whatever
the Queue and History hold. -/
theorem c4_next_in_playlist (rnd : RandOracle) (st : ManagerState) (pname : String)
    (b : Nat) (l1 l2 : List Nat) (pb pc : Nat)
    (hname : pname ≠ "") (hb : b ≠ 0)
    (hpl : dictGet st.playlists pname = some (l1 ++ pb :: pc :: l2))
    (hpb : derefId st.heap pb = b)
    (hl1 : ∀ p ∈ l1, derefId st.heap p ≠ b) :
    get_next_song rnd st (some b) (some pname) = (some pc, st) := by
  have hnext := nextOf_first st.heap b l1 pb pc l2 hpb hl1
  simp [get_next_song, truthyName, truthyId, hname, hb, hpl, hnext]

/-- C4 witness: playlist "rt" is [song 1, song 2, song 3]; the successor of
song id 2 is object 2 (song id 3) and the state is untouched. -/
theorem c4_next_witness :
    get_next_song idOracle c4WitnessState (some 2) (some "rt") = (some 2, c4WitnessState) := by
  exact c4_next_in_playlist idOracle c4WitnessState "rt" 2 [0] [] 1 2
    (by decide) (by decide) (by decide) (by decide) (by decide)

theorem removeSongG_names (genres : List (String × List Nat)) (g : String)
    (pred : Nat → Bool) :
    ((removeSongG genres g pred).2).map Prod.fst = genres.map Prod.fst := by
  induction genres with
  | nil => rfl
  | cons hd rest ih =>
    obtain ⟨name, songs⟩ := hd
    by_cases hm : strLower name = strLower g
    · simp [removeSongG, hm]
    · simp [removeSongG, hm, ih]

theorem getSongsG_removeSongG (genres : List (String × List Nat)) (g : String)
    (pred : Nat → Bool) :
    getSongsG ((removeSongG genres g pred).2) g = removeFirst pred (getSongsG genres g) := by
  induction genres with
  | nil => simp [removeSongG, getSongsG, findGenre, removeFirst]
  | cons hd rest ih =>
    obtain ⟨name, songs⟩ := hd
    by_cases hm : strLower name = strLower g
    · simp [removeSongG, hm, getSongsG, findGenre, List.find?]
    · simp only [removeSongG, hm, if_false]
      simp only [getSongsG, findGenre, List.find?] at ih ⊢
      have hbeq : (strLower name == strLower g) = false := by
        simpa using hm
      simp [hbeq, ih]

theorem addSongIn_getSongs_same (genres : List (String × List Nat)) (g : String)
    (p : Nat) (h : (findGenre genres g).isSome) :
    getSongsG (addSongIn genres g p) g = p :: getSongsG genres g := by
  induction genres with
  | nil => simp [findGenre] at h
  | cons hd rest ih =>
    obtain ⟨name, songs⟩ := hd
    by_cases hm : strLower name = strLower g
    · simp [addSongIn, hm, getSongsG, findGenre, List.find?]
    · have hbeq : (strLower name == strLower g) = false := by simpa using hm
      simp only [findGenre, List.find?, hbeq] at h
      simp only [addSongIn, hm, if_false]
      simp only [getSongsG, findGenre, List.find?, hbeq] at ih ⊢
      exact ih h

theorem addSongG_getSongs_same (genres : List (String × List Nat)) (g : String) (p : Nat) :
    getSongsG (addSongG genres g p) g = p :: getSongsG genres g := by
  unfold addSongG
  cases h : (findGenre genres g).isSome with
  | true =>
    simp only [if_true]
    exact addSongIn_getSongs_same genres g p h
  | false =>
    have hg : findGenre genres g = none := by
      cases hf : findGenre genres g
      · rfl
      · rw [hf] at h
        simp at h
    simp only [findGenre] at hg
    simp [getSongsG, findGenre, List.find?, hg]

theorem addSongIn_getSongs_other (genres : List (String × List Nat)) (g g' : String)
    (p : Nat) (h : strLower g' ≠ strLower g) :
    getSongsG (addSongIn genres g p) g' = getSongsG genres g' := by
  induction genres with
  | nil => rfl
  | cons hd rest ih =>
    obtain ⟨name, songs⟩ := hd
    by_cases hm : strLower name = strLower g
    · have hbeq : (strLower name == strLower g') = false := by
        simp only [beq_eq_false_iff_ne, ne_eq]
        intro he
        exact h (by rw [← he, hm])
      have hbeq2 : (strLower g == strLower g') = false := by
        simp only [beq_eq_false_iff_ne, ne_eq]
        intro he
        exact h he.symm
      simp [addSongIn, hm, getSongsG, findGenre, List.find?, hbeq, hbeq2]
    · simp only [addSongIn, hm, if_false]
      by_cases hm' : strLower name = strLower g'
      · have hbeq : (strLower name == strLower g') = true := by simpa using hm'
        simp [getSongsG, findGenre, List.find?, hbeq]
      · have hbeq : (strLower name == strLower g') = false := by simpa using hm'
        simp only [getSongsG, findGenre, List.find?, hbeq] at ih ⊢
        exact ih

theorem addSongG_getSongs_other (genres : List (String × List Nat)) (g g' : String)
    (p : Nat) (h : strLower g' ≠ strLower g) :
    getSongsG (addSongG genres g p) g' = getSongsG genres g' := by
  unfold addSongG
  by_cases hf : (findGenre genres g).isSome
  · simp only [hf, if_true]
    exact addSongIn_getSongs_other genres g g' p h
  · have hbeq : (strLower g == strLower g') = false := by
      simp only [beq_eq_false_iff_ne, ne_eq]
      intro he
      exact h he.symm
    simp only [hf, if_false]
    simp [getSongsG, findGenre, List.find?, hbeq]

theorem addSongIn_names (genres : List (String × List Nat)) (g : String) (p : Nat) :
    (addSongIn genres g p).map Prod.fst = genres.map Prod.fst := by
  induction genres with
  | nil => rfl
  | cons hd rest ih =>
    obtain ⟨name, songs⟩ := hd
    by_cases hm : strLower name = strLower g
    · simp [addSongIn, hm]
    · simp [addSongIn, hm, ih]

theorem findGenre_isSome_any (genres : List (String × List Nat)) (g : String) :
    (findGenre genres g).isSome
      = (genres.map Prod.fst).any (fun n => strLower n == strLower g) := by
  induction genres with
  | nil => rfl
  | cons hd rest ih =>
    obtain ⟨name, songs⟩ := hd
    by_cases hm : strLower name = strLower g
    · have hbeq : (strLower name == strLower g) = true := by simpa using hm
      simp [findGenre, List.find?, hbeq]
    · have hbeq : (strLower name == strLower g) = false := by simpa using hm
      simp only [findGenre, List.find?, hbeq, List.map_cons, List.any_cons, Bool.false_or]
      exact ih

theorem removeFirst_countP_le_one {α : Type} (pred : α → Bool) (l : List α)
    (h : List.countP pred l ≤ 1) : ∀ x ∈ removeFirst pred l, ¬ pred x := by
  induction l with
  | nil => simp [removeFirst]
  | cons a as ih =>
    by_cases ha : pred a
    · simp only [removeFirst, ha, if_true]
      rw [List.countP_cons_of_pos _ _ ha] at h
      have hzero : List.countP pred as = 0 := by omega
      intro x hx hpx
      have := List.countP_eq_zero.mp hzero x hx
      exact this hpx
    · simp only [removeFirst, ha, if_false]
      rw [List.countP_cons_of_neg _ _ (by simpa using ha)] at h
      intro x hx hpx
      rcases List.mem_cons.mp hx with rfl | hx'
      · exact ha hpx
      · exact ih h x hx' hpx

theorem derefId_set_same (heap : List Song) (q : Nat) (s' : Song)
    (hs : s'.song_id = (deref heap q).song_id) (p : Nat) :
    derefId (heap.set q s') p = derefId heap p := by
  by_cases hpq : q = p
  · subst hpq
    by_cases hq : q < heap.length
    · rw [derefId, deref_set_self _ _ _ hq, hs]
      rfl
    · rw [deref_set_of_le _ _ _ (le_of_not_lt hq)]
  · rw [derefId, deref, List.getD_eq_getElem?_getD, List.getElem?_set_ne hpq,
      ← List.getD_eq_getElem?_getD]
    rfl

/-- C7 (amended): for a library song (object ptr, id) and a genre G distinct
from the song's current genre up to case-insensitive normalization, after
update_song(id, genre := G) the song appears in the Two-Level Index listing
for G, no longer appears in the listing for its old genre, and when a genre
entry matching G already existed, list_genres() is unchanged. -/
theorem c7_update_genre (st : ManagerState) (id ptr : Nat) (G : String)
    (hidx : dictGet st.song_index id = some ptr)
    (hptr : ptr < st.heap.length)
    (hpid : derefId st.heap ptr = id)
    (hdist : strLower (deref st.heap ptr).genre ≠ strLower G)
    (hcount : List.countP (fun p => derefId st.heap p = id)
        (getSongsG st.genres (deref st.heap ptr).genre) ≤ 1) :
    id ∈ (get_songs_by_genre (update_song st id { noFields with genre := some G }) G).map
        (derefId (update_song st id { noFields with genre := some G }).heap)
    ∧ id ∉ (get_songs_by_genre (update_song st id { noFields with genre := some G })
        ((deref st.heap ptr).genre)).map
        (derefId (update_song st id { noFields with genre := some G }).heap)
    ∧ ((findGenre st.genres G).isSome →
        get_all_genres (update_song st id { noFields with genre := some G })
          = get_all_genres st) := by
  have hneq : (deref st.heap ptr).genre ≠ G := fun he => hdist (congrArg strLower he)
  have happ : applyFields (deref st.heap ptr) { noFields with genre := some G }
      = { deref st.heap ptr with genre := G } := by
    simp [applyFields, noFields]
  have hupd : update_song st id { noFields with genre := some G }
      = { st with
          heap := st.heap.set ptr { deref st.heap ptr with genre := G }
          genres := addSongG
            (removeSongG st.genres (deref st.heap ptr).genre
              (fun p => derefId (st.heap.set ptr { deref st.heap ptr with genre := G }) p = id)).2
            G ptr } := by
    simp only [update_song, hidx, happ]
    rw [if_pos hneq, if_neg (by simp)]
  have hid' : derefId (st.heap.set ptr { deref st.heap ptr with genre := G }) ptr = id := by
    rw [derefId, deref_set_self _ _ _ hptr]
    exact hpid
  have hsame : ∀ p, derefId (st.heap.set ptr { deref st.heap ptr with genre := G }) p
      = derefId st.heap p := derefId_set_same st.heap ptr _ rfl
  refine ⟨?_, ?_, ?_⟩
  · rw [hupd]
    simp only [get_songs_by_genre]
    rw [addSongG_getSongs_same]
    simp [hid']
  · rw [hupd]
    simp only [get_songs_by_genre]
    rw [addSongG_getSongs_other _ _ _ _ hdist, getSongsG_removeSongG]
    intro hmem
    obtain ⟨x, hx, hdx⟩ := List.mem_map.mp hmem
    have hcount' : List.countP
        (fun p => derefId (st.heap.set ptr { deref st.heap ptr with genre := G }) p = id)
        (getSongsG st.genres (deref st.heap ptr).genre) ≤ 1 := by
      have he : List.countP
          (fun p => derefId (st.heap.set ptr { deref st.heap ptr with genre := G }) p = id)
          (getSongsG st.genres (deref st.heap ptr).genre)
          = List.countP (fun p => derefId st.heap p = id)
            (getSongsG st.genres (deref st.heap ptr).genre) :=
        List.countP_congr (fun a _ => by simp [hsame a])
      rw [he]
      exact hcount
    have := removeFirst_countP_le_one _ _ hcount' x hx
    rw [hdx] at this
    simp at this
  · intro hG
    rw [hupd]
    simp only [get_all_genres]
    have hnames1 := removeSongG_names st.genres (deref st.heap ptr).genre
      (fun p => derefId (st.heap.set ptr { deref st.heap ptr with genre := G }) p = id)
    have hsome1 : (findGenre (removeSongG st.genres (deref st.heap ptr).genre
        (fun p => derefId (st.heap.set ptr { deref st.heap ptr with genre := G }) p = id)).2 G).isSome := by
      rw [findGenre_isSome_any, hnames1, ← findGenre_isSome_any]
      exact hG
    unfold addSongG
    rw [if_pos hsome1]
    unfold getGenresG
    rw [addSongIn_names, hnames1]

/-- C7 witness: the library song has genre "ROCK"; updating to "unknown"
(distinct even after normalization, and the "Unknown" entry already exists)
lists the song under "unknown", removes it from "ROCK", and leaves the genre
listing unchanged. -/
theorem c7_update_witness :
    1 ∈ (get_songs_by_genre (update_song c7WitnessState 1 { noFields with genre := some "unknown" }) "unknown").map
        (derefId (update_song c7WitnessState 1 { noFields with genre := some "unknown" }).heap)
    ∧ 1 ∉ (get_songs_by_genre (update_song c7WitnessState 1 { noFields with genre := some "unknown" }) "ROCK").map
        (derefId (update_song c7WitnessState 1 { noFields with genre := some "unknown" }).heap)
    ∧ get_all_genres (update_song c7WitnessState 1 { noFields with genre := some "unknown" })
        = get_all_genres c7WitnessState := by
  have h := c7_update_genre c7WitnessState 1 0 "unknown"
    (by decide) (by decide) (by decide) (by decide) (by decide)
  exact ⟨h.1, h.2.1, h.2.2 (by decide)⟩

theorem charListLt_irrefl (as : List Char) : charListLt as as = false := by
  induction as with
  | nil => rfl
  | cons a rest ih => simp [charListLt, ih]

theorem strLt_irrefl (a : String) : strLt a a = false := charListLt_irrefl a.data

theorem charListLt_eq_of_not (as bs : List Char) (h1 : charListLt as bs = false)
    (h2 : charListLt bs as = false) : as = bs := by
  induction as generalizing bs with
  | nil =>
    cases bs with
    | nil => rfl
    | cons b bs => simp [charListLt] at h1
  | cons a as ih =>
    cases bs with
    | nil => simp [charListLt] at h2
    | cons b bs =>
      by_cases hab : a < b
      · simp [charListLt, hab] at h1
      · by_cases hba : b < a
        · simp [charListLt, hba] at h2
        · have hone : a = b := le_antisymm (le_of_not_lt hba) (le_of_not_lt hab)
          subst hone
          simp only [charListLt, lt_irrefl, if_false] at h1 h2
          rw [ih bs h1 h2]

theorem strLt_eq_of_not (a b : String) (h1 : strLt a b = false)
    (h2 : strLt b a = false) : a = b := by
  cases a with
  | mk as =>
    cases b with
    | mk bs =>
      rw [charListLt_eq_of_not as bs h1 h2]

theorem bstSearchGo_insert_self (t : BSTree) (k : String) (v : Nat) :
    bstSearchGo (bstInsertGo t k v) k = some v := by
  induction t with
  | leaf => simp [bstInsertGo, bstSearchGo, strLt_irrefl]
  | node l key val r ihl ihr =>
    by_cases h1 : strLt k key
    · simp [bstInsertGo, h1, bstSearchGo, ihl]
    · by_cases h2 : strLt key k
      · simp [bstInsertGo, h1, h2, bstSearchGo, ihr]
      · simp [bstInsertGo, h1, h2, bstSearchGo]

theorem bstSearchGo_insert_ne (t : BSTree) (k k' : String) (v : Nat) (hne : k' ≠ k) :
    bstSearchGo (bstInsertGo t k v) k' = bstSearchGo t k' := by
  induction t with
  | leaf =>
    by_cases h1 : strLt k' k
    · simp [bstInsertGo, bstSearchGo, h1]
    · by_cases h2 : strLt k k'
      · simp [bstInsertGo, bstSearchGo, h1, h2]
      · exact absurd (strLt_eq_of_not k' k (by simpa using h1) (by simpa using h2)) hne
  | node l key val r ihl ihr =>
    by_cases h1 : strLt k key
    · simp only [bstInsertGo, h1, if_true]
      by_cases g1 : strLt k' key
      · simp [bstSearchGo, g1, ihl]
      · simp [bstSearchGo, g1]
    · by_cases h2 : strLt key k
      · simp only [bstInsertGo, h1, h2, if_false, if_true]
        by_cases g1 : strLt k' key
        · simp [bstSearchGo, g1]
        · by_cases g2 : strLt key k'
          · simp [bstSearchGo, g1, g2, ihr]
          · simp [bstSearchGo, g1, g2]
      · have hkey : k = key := strLt_eq_of_not k key (by simpa using h1) (by simpa using h2)
        subst hkey
        simp only [bstInsertGo, strLt_irrefl, Bool.false_eq_true, if_false]
        by_cases g1 : strLt k' k
        · simp [bstSearchGo, g1]
        · by_cases g2 : strLt k k'
          · simp [bstSearchGo, g1, g2]
          · exact absurd (strLt_eq_of_not k' k (by simpa using g1) (by simpa using g2)) hne

theorem fold_insert_search_miss (f : Nat → String) (l : List Nat) (t : BSTree)
    (k : String) (h : ∀ p ∈ l, f p ≠ k) :
    bstSearchGo (l.foldl (fun t q => bstInsertGo t (f q) q) t) k = bstSearchGo t k := by
  induction l generalizing t with
  | nil => rfl
  | cons x xs ih =>
    simp only [List.foldl_cons]
    rw [ih _ (fun p hp => h p (by simp [hp]))]
    exact bstSearchGo_insert_ne t (f x) k x (fun he => h x (by simp) (he ▸ rfl))

theorem fold_insert_search_hit (f : Nat → String) (l : List Nat) (t : BSTree)
    (k : String) (p : Nat) (hmem : p ∈ l) (hk : f p = k)
    (huniq : ∀ q ∈ l, f q = k → q = p) :
    bstSearchGo (l.foldl (fun t q => bstInsertGo t (f q) q) t) k = some p := by
  induction l generalizing t with
  | nil => cases hmem
  | cons x xs ih =>
    simp only [List.foldl_cons]
    by_cases hx : p ∈ xs
    · exact ih _ hx (fun q hq hfq => huniq q (List.mem_cons_of_mem x hq) hfq)
    · have hxp : x = p := by
        rcases List.mem_cons.mp hmem with h | h
        · exact h.symm
        · exact absurd h hx
      subst hxp
      have hmiss : ∀ q ∈ xs, f q ≠ k := by
        intro q hq hfq
        have := huniq q (List.mem_cons_of_mem x hq) hfq
        subst this
        exact hx hq
      rw [fold_insert_search_miss f xs _ k hmiss, ← hk]
      exact bstSearchGo_insert_self t (f x) x

/-- C8 (amended): in a state whose Keyed Tree is the one built from the
current song set, searching for the title of a library song whose normalized
title key is unique among the library returns exactly that one song (through
the exact-lookup path; the partial-match fallback is not reached). -/
theorem c8_search_roundtrip (st : ManagerState) (p : Nat)
    (hb : st.bst = buildBST st.heap st.library)
    (hmem : p ∈ st.library)
    (ht : (deref st.heap p).title ≠ "")
    (huniq : ∀ q ∈ st.library,
        strLower (pyTitleKey (deref st.heap q)) = strLower (pyTitleKey (deref st.heap p)) →
        q = p) :
    search_by_title st ((deref st.heap p).title) = [p] := by
  have hkey : strLower (pyTitleKey (deref st.heap p)) = strLower ((deref st.heap p).title) := by
    simp [pyTitleKey, ht]
  have hsearch : bstSearch st.bst ((deref st.heap p).title) = some p := by
    rw [hb]
    show bstSearchGo
      (st.library.foldl (fun t q => bstInsertGo t (strLower (pyTitleKey (deref st.heap q))) q)
        BSTree.leaf) (strLower ((deref st.heap p).title)) = some p
    exact fold_insert_search_hit _ st.library BSTree.leaf _ p hmem hkey
      (fun q hq he => huniq q hq (by rw [he, hkey]))
  simp [search_by_title, hsearch]

/-- C8 witness: in the two-song library with titles "x" and "y" (normalized
keys unique), searching the first song's title returns exactly that song. -/
theorem c8_search_witness : search_by_title c8WitnessState "x" = [0] := by
  have h := c8_search_roundtrip c8WitnessState 0 (by decide) (by decide) (by decide)
    (by decide)
  simpa using h

theorem deref_append_left (heap l : List Song) (p : Nat) (h : p < heap.length) :
    deref (heap ++ l) p = deref heap p := by
  rw [deref, deref, List.getD_eq_getElem?_getD, List.getD_eq_getElem?_getD,
    List.getElem?_append_left h]

theorem dictGet_pairs_none (l : List Nat) (f : Nat → Nat) (k : Nat)
    (h : k ∉ l.map f) :
    dictGet (l.map (fun p => (f p, ([] : List Nat)))) k = none := by
  induction l with
  | nil => rfl
  | cons x xs ih =>
    simp only [List.map_cons, List.mem_cons, not_or] at h
    rw [List.map_cons, dictGet, if_neg (fun he => h.1 he.symm)]
    exact ih h.2

theorem index_and_insert_inv (st : ManagerState) (song : Song)
    (hsid : song.song_id = st.next_id) (h : ScanInv st) :
    ScanInv (let st1 := index_and_insert st song
             { st1 with next_id := st1.next_id + 1 }) := by
  obtain ⟨hbound, hids, hnext, hgraph⟩ := h
  simp only [index_and_insert, ScanInv]
  have hkeep : ∀ p ∈ st.library,
      derefId (st.heap ++ [song]) p = derefId st.heap p := by
    intro p hp
    rw [derefId, derefId, deref_append_left _ _ _ (hbound p hp)]
  have hlast : derefId (st.heap ++ [song]) st.heap.length = st.next_id := by
    rw [derefId, deref, List.getD_eq_getElem?_getD]
    simp [hsid]
  refine ⟨?_, ?_, ?_, ?_⟩
  · intro p hp
    simp only [List.length_append, List.length_cons, List.length_nil]
    rcases List.mem_append.mp hp with hp' | hp'
    · exact Nat.lt_succ_of_lt (hbound p hp')
    · simp only [List.mem_singleton] at hp'
      omega
  · rw [List.map_append, List.map_congr_left hkeep, hids]
    simp only [List.map_cons, List.map_nil, hlast, List.length_append,
      List.length_cons, List.length_nil, hnext, Nat.zero_add]
    have hc := @List.range'_concat 1 1 st.library.length
    simp only [one_mul] at hc
    rw [hc]
    simp [Nat.add_comm]
  · simp only [List.length_append, List.length_cons, List.length_nil]
    omega
  · have hnone : dictGet st.graph song.song_id = none := by
      rw [hgraph]
      apply dictGet_pairs_none
      rw [hids, hsid, hnext]
      simp only [List.mem_range'_1]
      omega
    have hmap : st.library.map (fun p => (derefId (st.heap ++ [song]) p, ([] : List Nat)))
        = st.library.map (fun p => (derefId st.heap p, ([] : List Nat))) :=
      List.map_congr_left (fun p hp => by rw [hkeep p hp])
    rw [graphAddSong, hnone]
    simp only [Option.isSome_none, Bool.false_eq_true, if_false, hgraph]
    rw [List.map_append, hmap]
    simp [hlast, hsid]

theorem scanFile_inv (st : ManagerState) (fname : String) (h : ScanInv st) :
    ScanInv (scanFile st fname) := by
  unfold scanFile
  by_cases hm : isMusicFile fname
  · simp only [hm, if_true]
    exact index_and_insert_inv st _ rfl h
  · simpa [hm] using h

theorem scanLoop_inv (files : List String) (st : ManagerState) (h : ScanInv st) :
    ScanInv (files.foldl scanFile st) := by
  induction files generalizing st with
  | nil => exact h
  | cons f fs ih => exact ih _ (scanFile_inv st f h)

theorem rescan_scan_inv (st : ManagerState) (files : List String) :
    ScanInv ((pySortedStrings files).foldl scanFile
      { st with library := [], genres := [], bst := BSTree.leaf, graph := [],
                song_index := [], next_id := 1 }) := by
  apply scanLoop_inv
  refine ⟨by simp, by simp [List.range'], by simp, by simp⟩

theorem dictGet_dictDel_isSome {κ α : Type} [DecidableEq κ] (d : List (κ × α))
    (i k : κ) (v : α) (h : dictGet (dictDel d i) k = some v) :
    (dictGet d k).isSome := by
  induction d with
  | nil => simp [dictDel, dictGet] at h
  | cons hd rest ih =>
    obtain ⟨k', v'⟩ := hd
    by_cases hki : k' = i
    · simp only [dictDel, hki, if_true] at h
      by_cases hkk : k' = k
      · simp [dictGet, hkk]
      · simp [dictGet, hkk, h]
    · simp only [dictDel, hki, if_false] at h
      by_cases hkk : k' = k
      · simp [dictGet, hkk]
      · simp only [dictGet, hkk, if_false] at h ⊢
        exact ih h

/-- C2 (amended): within a rescan generation ids are unique and assigned
monotonically increasing starting at 1 — after any rescan the library ids are
exactly 1..n in order — and delete_song never reassigns an id: it preserves
the id counter and introduces no id-lookup entry. But rescan resets the
counter to 1, so a later rescan reassigns an already-used id value to a
different song (see the counterexample). -/
theorem c2_ids_monotone_within_generation (st : ManagerState) (files : List String)
    (id : Nat) :
    ((rescan st files).library.map (derefId (rescan st files).heap)
        = List.range' 1 (rescan st files).library.length)
    ∧ (rescan st files).next_id = (rescan st files).library.length + 1
    ∧ (delete_song st id).next_id = st.next_id
    ∧ (∀ k v, dictGet (delete_song st id).song_index k = some v →
        (dictGet st.song_index k).isSome) := by
  obtain ⟨hb, hids, hnext, hgraph⟩ := rescan_scan_inv st files
  refine ⟨?_, ?_, ?_, ?_⟩
  · simpa only [rescan] using hids
  · simpa only [rescan] using hnext
  · unfold delete_song
    cases h : dictGet st.song_index id <;> rfl
  · intro k v hk
    unfold delete_song at hk
    cases h : dictGet st.song_index id with
    | none =>
      rw [h] at hk
      simp [hk]
    | some ptr =>
      rw [h] at hk
      exact dictGet_dictDel_isSome st.song_index id k v hk

/-- C2 witness: the first generation's ids are [1]; deleting an unknown id
keeps the counter and the index entry for id 1 survives. -/
theorem c2_ids_witness :
    c2StateB.library.map (derefId c2StateB.heap) = List.range' 1 c2StateB.library.length
    ∧ c2StateB.next_id = c2StateB.library.length + 1
    ∧ (delete_song c2StateA 5).next_id = c2StateA.next_id
    ∧ (dictGet c2StateA.song_index 1).isSome := by
  have h := c2_ids_monotone_within_generation c2StateA ["b.mp3"] 5
  exact ⟨h.1, h.2.1, h.2.2.1, h.2.2.2 1 0 (by decide)⟩

theorem dictGet_set_ne {κ α : Type} [DecidableEq κ] (d : List (κ × α)) (k k' : κ)
    (v : α) (h : k ≠ k') : dictGet (dictSet d k v) k' = dictGet d k' := by
  induction d with
  | nil => simp [dictSet, dictGet, h]
  | cons hd rest ih =>
    obtain ⟨k0, v0⟩ := hd
    by_cases hk : k0 = k
    · subst hk
      simp [dictSet, dictGet, h]
    · simp [dictSet, dictGet, hk, ih]

theorem adjGetD_append_nil (g : Adj) (i x : Nat) :
    adjGetD (g ++ [(i, [])]) x = adjGetD g x := by
  induction g with
  | nil => by_cases h : i = x <;> simp [adjGetD, dictGet, h]
  | cons hd rest ih =>
    obtain ⟨k, v⟩ := hd
    by_cases hk : k = x
    · simp [adjGetD, dictGet, hk]
    · simpa [adjGetD, dictGet, hk] using ih

theorem adjGetD_graphAddSong (g : Adj) (i x : Nat) :
    adjGetD (graphAddSong g i) x = adjGetD g x := by
  unfold graphAddSong
  by_cases h : (dictGet g i).isSome
  · simp [h]
  · simp only [h, Bool.false_eq_true, if_false]
    exact adjGetD_append_nil g i x

theorem adjGetD_dictSet_self (g : Adj) (k : Nat) (v : List Nat) :
    adjGetD (dictSet g k v) k = v := by
  simp [adjGetD, dictGet_set_self]

theorem adjGetD_dictSet_ne (g : Adj) (k k' : Nat) (v : List Nat) (h : k ≠ k') :
    adjGetD (dictSet g k v) k' = adjGetD g k' := by
  simp [adjGetD, dictGet_set_ne g k k' v h]

theorem mem_adj_graphAddEdge (g : Adj) (a b x y : Nat) :
    y ∈ adjGetD (graphAddEdge g a b) x ↔
      y ∈ adjGetD g x ∨ (a ≠ b ∧ ((x = a ∧ y = b) ∨ (x = b ∧ y = a))) := by
  by_cases hab : a = b
  · simp [graphAddEdge, hab]
  · simp only [graphAddEdge, hab, if_false]
    have hg2 : ∀ z, adjGetD (graphAddSong (graphAddSong g a) b) z = adjGetD g z := by
      intro z
      rw [adjGetD_graphAddSong, adjGetD_graphAddSong]
    set g2 := graphAddSong (graphAddSong g a) b with hg2def
    have hga : ∀ z, z ≠ a →
        adjGetD (if b ∈ adjGetD g2 a then g2 else dictSet g2 a (adjGetD g2 a ++ [b])) z
          = adjGetD g z := by
      intro z hz
      by_cases hmem : b ∈ adjGetD g2 a
      · rw [if_pos hmem, hg2]
      · rw [if_neg hmem, adjGetD_dictSet_ne _ _ _ _ (fun he => hz he.symm), hg2]
    have hga' : ∀ w,
        w ∈ adjGetD (if b ∈ adjGetD g2 a then g2 else dictSet g2 a (adjGetD g2 a ++ [b])) a
          ↔ w ∈ adjGetD g a ∨ w = b := by
      intro w
      by_cases hmem : b ∈ adjGetD g2 a
      · rw [if_pos hmem, hg2]
        rw [hg2] at hmem
        constructor
        · exact fun hw => Or.inl hw
        · rintro (hw | rfl)
          · exact hw
          · exact hmem
      · rw [if_neg hmem, adjGetD_dictSet_self, hg2]
        simp
    set g3 := if b ∈ adjGetD g2 a then g2 else dictSet g2 a (adjGetD g2 a ++ [b]) with hg3def
    have hgb : ∀ z, z ≠ b →
        adjGetD (if a ∈ adjGetD g3 b then g3 else dictSet g3 b (adjGetD g3 b ++ [a])) z
          = adjGetD g3 z := by
      intro z hz
      by_cases hmem : a ∈ adjGetD g3 b
      · rw [if_pos hmem]
      · rw [if_neg hmem, adjGetD_dictSet_ne _ _ _ _ (fun he => hz he.symm)]
    have hgb' : ∀ w,
        w ∈ adjGetD (if a ∈ adjGetD g3 b then g3 else dictSet g3 b (adjGetD g3 b ++ [a])) b
          ↔ w ∈ adjGetD g3 b ∨ w = a := by
      intro w
      by_cases hmem : a ∈ adjGetD g3 b
      · rw [if_pos hmem]
        constructor
        · exact fun hw => Or.inl hw
        · rintro (hw | rfl)
          · exact hw
          · exact hmem
      · rw [if_neg hmem, adjGetD_dictSet_self]
        simp
    by_cases hxa : x = a
    · subst hxa
      rw [hgb x hab, hga']
      constructor
      · rintro (hw | rfl)
        · exact Or.inl hw
        · exact Or.inr ⟨hab, Or.inl ⟨rfl, rfl⟩⟩
      · rintro (hw | ⟨hne, hcase⟩)
        · exact Or.inl hw
        · rcases hcase with ⟨-, rfl⟩ | ⟨hc, -⟩
          · exact Or.inr rfl
          · exact absurd hc hab
    · by_cases hxb : x = b
      · subst hxb
        rw [hgb', hga x hxa]
        constructor
        · rintro (hw | rfl)
          · exact Or.inl hw
          · exact Or.inr ⟨hab, Or.inr ⟨rfl, rfl⟩⟩
        · rintro (hw | ⟨hne, hcase⟩)
          · exact Or.inl hw
          · rcases hcase with ⟨hc, -⟩ | ⟨-, rfl⟩
            · exact absurd hc.symm hab
            · exact Or.inr rfl
      · rw [hgb x hxb, hga x hxa]
        constructor
        · exact fun hw => Or.inl hw
        · rintro (hw | ⟨hne, hcase⟩)
          · exact hw
          · rcases hcase with ⟨hc, -⟩ | ⟨hc, -⟩
            · exact absurd hc hxa
            · exact absurd hc hxb

theorem mem_adj_addEdgesFrom (a : Song) (rest : List Song) (g : Adj) (x y : Nat) :
    y ∈ adjGetD (addEdgesFrom a rest g) x ↔
      y ∈ adjGetD g x ∨ ∃ b ∈ rest, 2 ≤ score a b ∧ a.song_id ≠ b.song_id ∧
        ((x = a.song_id ∧ y = b.song_id) ∨ (x = b.song_id ∧ y = a.song_id)) := by
  induction rest generalizing g with
  | nil => simp [addEdgesFrom]
  | cons b bs ih =>
    simp only [addEdgesFrom, List.foldl_cons] at ih ⊢
    by_cases hs : 2 ≤ score a b
    · simp only [hs, if_true]
      rw [ih, mem_adj_graphAddEdge]
      rw [List.exists_mem_cons_iff]
      constructor
      · rintro ((hw | ⟨hne, hc⟩) | ⟨b', hb', hrest⟩)
        · exact Or.inl hw
        · exact Or.inr (Or.inl ⟨hs, hne, hc⟩)
        · exact Or.inr (Or.inr ⟨b', hb', hrest⟩)
      · rintro (hw | ⟨-, hne, hc⟩ | ⟨b', hb', hrest⟩)
        · exact Or.inl (Or.inl hw)
        · exact Or.inl (Or.inr ⟨hne, hc⟩)
        · exact Or.inr ⟨b', hb', hrest⟩
    · simp only [hs, if_false]
      rw [ih, List.exists_mem_cons_iff]
      constructor
      · rintro (hw | ⟨b', hb', hrest⟩)
        · exact Or.inl hw
        · exact Or.inr (Or.inr ⟨b', hb', hrest⟩)
      · rintro (hw | ⟨hs', -⟩ | ⟨b', hb', hrest⟩)
        · exact Or.inl hw
        · exact absurd hs' hs
        · exact Or.inr ⟨b', hb', hrest⟩

theorem mem_adj_buildEdges (songs : List Song) (g : Adj) (x y : Nat) :
    y ∈ adjGetD (buildEdges songs g) x ↔
      y ∈ adjGetD g x ∨ ∃ a b, OrdPair songs a b ∧ 2 ≤ score a b ∧
        a.song_id ≠ b.song_id ∧
        ((x = a.song_id ∧ y = b.song_id) ∨ (x = b.song_id ∧ y = a.song_id)) := by
  induction songs generalizing g with
  | nil => simp [buildEdges, OrdPair]
  | cons a rest ih =>
    simp only [buildEdges]
    rw [ih, mem_adj_addEdgesFrom]
    constructor
    · rintro ((hw | ⟨b, hb, hrest⟩) | ⟨a', b', hop, hrest⟩)
      · exact Or.inl hw
      · exact Or.inr ⟨a, b, Or.inl ⟨rfl, hb⟩, hrest⟩
      · exact Or.inr ⟨a', b', Or.inr hop, hrest⟩
    · rintro (hw | ⟨a', b', hop, hrest⟩)
      · exact Or.inl (Or.inl hw)
      · rcases hop with ⟨rfl, hb⟩ | hop'
        · exact Or.inl (Or.inr ⟨b', hb, hrest⟩)
        · exact Or.inr ⟨a', b', hop', hrest⟩

theorem adjGetD_pairs_nil (l : List Nat) (f : Nat → Nat) (x : Nat) :
    adjGetD (l.map (fun p => (f p, ([] : List Nat)))) x = [] := by
  induction l with
  | nil => rfl
  | cons p ps ih =>
    by_cases h : f p = x
    · simp [adjGetD, dictGet, h]
    · simpa [adjGetD, dictGet, h] using ih

theorem ordPair_mem (l : List Song) (a b : Song) (h : OrdPair l a b) :
    a ∈ l ∧ b ∈ l := by
  induction l with
  | nil => cases h
  | cons x xs ih =>
    rcases h with ⟨rfl, hb⟩ | h'
    · exact ⟨List.mem_cons_self x xs, List.mem_cons_of_mem x hb⟩
    · obtain ⟨ha', hb'⟩ := ih h'
      exact ⟨List.mem_cons_of_mem x ha', List.mem_cons_of_mem x hb'⟩

theorem ordPair_of_mem (l : List Song) (a b : Song) (ha : a ∈ l) (hb : b ∈ l)
    (hne : a ≠ b) : OrdPair l a b ∨ OrdPair l b a := by
  induction l with
  | nil => cases ha
  | cons x xs ih =>
    rcases List.mem_cons.mp ha with rfl | ha'
    · rcases List.mem_cons.mp hb with rfl | hb'
      · exact absurd rfl hne
      · exact Or.inl (Or.inl ⟨rfl, hb'⟩)
    · rcases List.mem_cons.mp hb with rfl | hb'
      · exact Or.inr (Or.inl ⟨rfl, ha'⟩)
      · rcases ih ha' hb' with h | h
        · exact Or.inl (Or.inr h)
        · exact Or.inr (Or.inr h)

theorem score_comm (a b : Song) : score a b = score b a := by
  unfold score
  have h1 : (a.artist ≠ "" ∧ b.artist ≠ "" ∧ a.artist = b.artist)
      ↔ (b.artist ≠ "" ∧ a.artist ≠ "" ∧ b.artist = a.artist) := by
    constructor
    · rintro ⟨u, v, w⟩
      exact ⟨v, u, w.symm⟩
    · rintro ⟨u, v, w⟩
      exact ⟨v, u, w.symm⟩
  have h2 : (a.genre ≠ "" ∧ b.genre ≠ "" ∧ a.genre = b.genre)
      ↔ (b.genre ≠ "" ∧ a.genre ≠ "" ∧ b.genre = a.genre) := by
    constructor
    · rintro ⟨u, v, w⟩
      exact ⟨v, u, w.symm⟩
    · rintro ⟨u, v, w⟩
      exact ⟨v, u, w.symm⟩
  have h3 : (a.year - b.year).natAbs = (b.year - a.year).natAbs := by
    rw [← Int.natAbs_neg, neg_sub]
  rw [if_congr h1 rfl rfl, if_congr h2 rfl rfl, h3]

/-- C6: after rescan's edge construction over the complete song set, for every
pair of distinct songs a, b the Similarity Graph contains the edge a–b exactly
when score(a,b) ≥ 2, where score adds 3 for equal non-empty artists, 2 for
equal non-empty genres, and 1 when the release years differ by at most 2; and
on the spec's scenario songs the edge construction yields neighbors(A.id) =
[B.id]. -/
theorem c6_similarity_edges :
    (∀ (st : ManagerState) (files : List String) (a b : Song),
      a ∈ get_all_songs (rescan st files) → b ∈ get_all_songs (rescan st files) →
      a.song_id ≠ b.song_id →
      (b.song_id ∈ graphNeighbors (rescan st files).graph a.song_id ↔ 2 ≤ score a b))
    ∧ graphNeighbors (buildEdges [songA, songB, songC] (nodesOnly [songA, songB, songC])) 1
        = [2] := by
  constructor
  · intro st files a b ha hb hne
    obtain ⟨hbound, hids, hnext, hgraph⟩ := rescan_scan_inv st files
    set st1 := (pySortedStrings files).foldl scanFile
      { st with library := [], genres := [], bst := BSTree.leaf, graph := [],
                song_index := [], next_id := 1 } with hst1
    have hresc : rescan st files
        = { st1 with graph := buildEdges (get_all_songs st1) st1.graph } := rfl
    rw [hresc] at ha hb ⊢
    have hsongs : get_all_songs { st1 with graph := buildEdges (get_all_songs st1) st1.graph }
        = get_all_songs st1 := rfl
    rw [hsongs] at ha hb
    have hfree : ∀ x, adjGetD st1.graph x = [] := by
      intro x
      rw [hgraph]
      exact adjGetD_pairs_nil _ _ x
    have hnodup : ((get_all_songs st1).map Song.song_id).Nodup := by
      have hmm : (get_all_songs st1).map Song.song_id = st1.library.map (derefId st1.heap) := by
        rw [get_all_songs, List.map_map]
        rfl
      rw [hmm, hids]
      exact List.nodup_range' 1 st1.library.length
    have hinj := List.inj_on_of_nodup_map hnodup
    show b.song_id ∈ adjGetD (buildEdges (get_all_songs st1) st1.graph) a.song_id ↔ _
    rw [mem_adj_buildEdges]
    constructor
    · rintro (hw | ⟨a', b', hop, hs, hne', hc⟩)
      · rw [hfree] at hw
        cases hw
      · obtain ⟨ha', hb'⟩ := ordPair_mem _ _ _ hop
        rcases hc with ⟨hxa, hyb⟩ | ⟨hxb, hya⟩
        · have e1 : a' = a := hinj ha' ha hxa.symm
          have e2 : b' = b := hinj hb' hb hyb.symm
          rw [e1, e2] at hs
          exact hs
        · have e1 : b' = a := hinj hb' ha hxb.symm
          have e2 : a' = b := hinj ha' hb hya.symm
          rw [e1, e2] at hs
          rw [score_comm]
          exact hs
    · intro hs
      have hne2 : a ≠ b := fun he => hne (congrArg Song.song_id he)
      rcases ordPair_of_mem _ a b ha hb hne2 with hop | hop
      · exact Or.inr ⟨a, b, hop, hs, hne, Or.inl ⟨rfl, rfl⟩⟩
      · refine Or.inr ⟨b, a, hop, ?_, fun he => hne he.symm, Or.inr ⟨rfl, rfl⟩⟩
        rw [score_comm b a]
        exact hs
  · decide

/-- C6 witness: all files scanned by rescan share artist, genre and year, so
every pair scores 6 ≥ 2; the iff instantiated at the first two songs of a
three-file rescan yields the edge 1–2. -/
theorem c6_witness :
    2 ∈ graphNeighbors (rescan initState ["b.mp3", "c.mp3", "x.mp3"]).graph 1 := by
  have h := c6_similarity_edges.1 initState ["b.mp3", "c.mp3", "x.mp3"]
    (deref (rescan initState ["b.mp3", "c.mp3", "x.mp3"]).heap 0)
    (deref (rescan initState ["b.mp3", "c.mp3", "x.mp3"]).heap 1)
    (by decide) (by decide) (by decide)
  exact h.mpr (by decide)
